import Mathlib

/-!
Verification development for the xiaozhi voice-assistant backend
(`backend/app`).  Each section embeds one source module shallowly:
pure Python functions become Lean functions over `List`, `Nat`, `Int`
and `ℚ`; stateful methods become explicit state-passing functions.
Wall-clock reads (`time.time()`) are passed in as an explicit `now`
argument, and external effects (the Opus codec, the Silero model) are
passed in as parameters or abstracted to the data the surrounding code
actually inspects.
-/

/-! ## Conversation memory (`app/dialogue/memory.py`) -/

/-- `ChatMessage` from `memory.py`.  `tool_calls`, `name` and
`tool_call_id` are omitted: the rollback comparison and the window
logic only distinguish messages by value equality, which the modelled
fields realise; `metadata` is kept as an association list standing for
the Python dict. -/
structure ChatMessage where
  role : String
  content : Option String
  metadata : List (String × String)
  deriving DecidableEq

/-- `Conversation.ROLLBACK_MESSAGE = ChatMessage(role="system", content="__rollback__")`. -/
def rollbackMessage : ChatMessage :=
  { role := "system", content := some "__rollback__", metadata := [] }

/-- `Conversation.add` (without the optional `time_millis` argument,
which the rollback claim does not exercise): the sentinel pops the most
recent entry, anything else is appended. -/
def Conversation.add (msgs : List ChatMessage) (m : ChatMessage) : List ChatMessage :=
  if m = rollbackMessage then msgs.dropLast else msgs ++ [m]

/-- `Conversation.role_system_message`: a system message is produced
exactly when `roleDesc` is present and truthy (non-empty). -/
def roleSystemMessage (roleDesc : Option String) : Option ChatMessage :=
  match roleDesc with
  | some d => if d = "" then none else some { role := "system", content := some d, metadata := [] }
  | none => none

/-- The `while` loop at the top of `MessageWindowConversation.messages`:
drop the two oldest entries while the stored list is longer than
`max_messages + 1`. -/
def windowTrim (maxMessages : Nat) (l : List ChatMessage) : List ChatMessage :=
  if _h : maxMessages + 1 < l.length then
    if 2 ≤ l.length then windowTrim maxMessages (l.drop 2) else l
  else l
termination_by l.length
decreasing_by
  simp only [List.length_drop]
  omega

/-- `MessageWindowConversation.messages`: trim the stored list in
place, then serialize with the system prompt prepended.  Returns the
serialized payload together with the stored list after trimming (the
`to_openai_dict` projection is the identity on the modelled fields). -/
def windowMessages (roleDesc : Option String) (maxMessages : Nat)
    (stored : List ChatMessage) : List ChatMessage × List ChatMessage :=
  let trimmed := windowTrim maxMessages stored
  match roleSystemMessage roleDesc with
  | some s => (s :: trimmed, trimmed)
  | none => (trimmed, trimmed)

/-! ## TTS provider value mapping
(`app/dialogue/tts/providers/{aliyun_nls,xfyun,minimax}_provider.py`)

Python floats are modelled as rationals; `round` is Python 3's
round-half-to-even. -/

/-- Python 3 `round` on a non-negative-or-negative rational:
round half to even. -/
def pythonRound (q : ℚ) : ℤ :=
  if q - (⌊q⌋ : ℚ) < 1/2 then ⌊q⌋
  else if 1/2 < q - (⌊q⌋ : ℚ) then ⌊q⌋ + 1
  else if 2 ∣ ⌊q⌋ then ⌊q⌋ else ⌊q⌋ + 1

/-- `AliyunNlsTtsService._to_nls_value`:
`max(-500, min(500, int(round((value - 1.0) * 500))))`. -/
def toNlsValue (v : ℚ) : ℤ :=
  max (-500) (min 500 (pythonRound ((v - 1) * 500)))

/-- `XfyunTtsService._to_xfyun_value`:
`max(0, min(100, int(round((value - 0.5) * 100 / 1.5))))`. -/
def toXfyunValue (v : ℚ) : ℤ :=
  max 0 (min 100 (pythonRound ((v - 1/2) * 100 / (3/2))))

/-- The pitch computation in `MiniMaxTtsService._build_payload`:
`max(-12, min(12, int(round((self.pitch - 1.0) * 24))))`. -/
def minimaxPitch (v : ℚ) : ℤ :=
  max (-12) (min 12 (pythonRound ((v - 1) * 24)))

theorem pythonRound_eq_floor_or_succ (q : ℚ) :
    pythonRound q = ⌊q⌋ ∨ pythonRound q = ⌊q⌋ + 1 := by
  unfold pythonRound
  split
  · exact Or.inl rfl
  · split
    · exact Or.inr rfl
    · split
      · exact Or.inl rfl
      · exact Or.inr rfl

theorem le_pythonRound {a : ℤ} {q : ℚ} (h : (a : ℚ) ≤ q) : a ≤ pythonRound q := by
  have hf : a ≤ ⌊q⌋ := Int.le_floor.mpr h
  rcases pythonRound_eq_floor_or_succ q with h1 | h1 <;> omega

theorem pythonRound_le {q : ℚ} {b : ℤ} (h : q ≤ (b : ℚ)) : pythonRound q ≤ b := by
  have hfb : ⌊q⌋ ≤ b := by
    have := Int.floor_le_floor h
    simpa using this
  unfold pythonRound
  split
  · exact hfb
  · rename_i hlt
    push_neg at hlt
    have hq : (⌊q⌋ : ℚ) + 1/2 ≤ q := by
      have := Int.floor_le q
      linarith
    have hb1 : (⌊q⌋ : ℚ) + 1 ≤ (b : ℚ) + 1/2 := by linarith
    have : ⌊q⌋ + 1 ≤ b := by
      by_contra hcon
      push_neg at hcon
      have : (b : ℚ) + 1 ≤ (⌊q⌋ : ℚ) + 1 := by
        exact_mod_cast by omega
      linarith
    split
    · exact this
    · split
      · exact hfb
      · exact this

/-! ## Opus codec (`app/utils/opus_processor.py`)

`FRAME_SIZE = 960` samples; PCM bytes are 16-bit little-endian.  The
actual libopus `encoder.encode` call is external; an encoded frame is
modelled by the 960-sample slice it encodes (only frame counts and the
leftover buffer matter to the captured behaviour). -/

def FRAME_SIZE : Nat := 960

/-- `LeftoverState`: the retained trailing samples
(`leftover_buffer[:leftover_count]`) and the `is_first` flag. -/
structure LeftoverState where
  leftover : List Int
  isFirst : Bool
  deriving DecidableEq

def LeftoverState.init : LeftoverState := { leftover := [], isFirst := true }

/-- One little-endian 16-bit sample from two bytes (`array("h").frombytes`). -/
def toInt16 (lo hi : Nat) : Int :=
  if lo + 256 * hi < 32768 then ((lo + 256 * hi : Nat) : Int)
  else ((lo + 256 * hi : Nat) : Int) - 65536

/-- Pair up a byte list into 16-bit samples. -/
def bytesToShorts : List Nat → List Int
  | lo :: hi :: rest => toInt16 lo hi :: bytesToShorts rest
  | _ => []

/-- `if len(pcm) % 2 != 0: pcm = pcm[:-1]` -/
def evenBytes (pcm : List Nat) : List Nat :=
  if pcm.length % 2 = 1 then pcm.dropLast else pcm

/-- The `combined` buffer of `pcm_to_opus`: leftover samples are
prepended when streaming and either a leftover exists or this is not
the first streaming call. -/
def combinedSamples (st : LeftoverState) (shorts : List Int) (isStream : Bool) : List Int :=
  if isStream = true ∧ (st.leftover ≠ [] ∨ st.isFirst = false)
  then st.leftover ++ shorts
  else shorts

/-- The `is_first` flag after the combining step (`state.is_first = False`
on the first streaming call). -/
def nextIsFirst (st : LeftoverState) (isStream : Bool) : Bool :=
  if isStream = true ∧ (st.leftover ≠ [] ∨ st.isFirst = false) then st.isFirst
  else if isStream then false else st.isFirst

/-- The full 960-sample frames sliced out of `combined`. -/
def framesOf (combined : List Int) : List (List Int) :=
  (List.range (combined.length / FRAME_SIZE)).map
    (fun i => (combined.drop (i * FRAME_SIZE)).take FRAME_SIZE)

/-- `OpusProcessor.pcm_to_opus`.  Output: the list of 960-sample frames
handed to the encoder, and the updated leftover state.  The source's
`state.clear()` resets the count to 0 and `is_first` to `True`. -/
def pcmToOpus (st : LeftoverState) (pcm : List Nat) (isStream : Bool) :
    List (List Int) × LeftoverState :=
  if pcm = [] then ([], st)
  else
    (framesOf (combinedSamples st (bytesToShorts (evenBytes pcm)) isStream),
      if isStream then
        if 0 < (combinedSamples st (bytesToShorts (evenBytes pcm)) isStream).length % FRAME_SIZE
        then { leftover :=
                 (combinedSamples st (bytesToShorts (evenBytes pcm)) isStream).drop
                   ((combinedSamples st (bytesToShorts (evenBytes pcm)) isStream).length
                     / FRAME_SIZE * FRAME_SIZE),
               isFirst := nextIsFirst st isStream }
        else LeftoverState.init
      else { leftover := st.leftover, isFirst := nextIsFirst st isStream })

/-- Fold a sequence of streaming encode calls (`is_stream=True`) over
the leftover state, starting from a given state. -/
def runStreamState (st : LeftoverState) (chunks : List (List Nat)) : LeftoverState :=
  chunks.foldl (fun s c => (pcmToOpus s c true).2) st

/-- Total number of PCM bytes supplied across a sequence of calls. -/
def totalPcmBytes (chunks : List (List Nat)) : Nat :=
  (chunks.map List.length).sum

theorem bytesToShorts_length : ∀ l : List Nat, (bytesToShorts l).length = l.length / 2
  | [] => by simp [bytesToShorts]
  | [_] => by simp [bytesToShorts]
  | _ :: _ :: rest => by
      simp only [bytesToShorts, List.length_cons, bytesToShorts_length rest]
      omega

theorem shorts_of_evenBytes_length (pcm : List Nat) :
    (bytesToShorts (evenBytes pcm)).length = pcm.length / 2 := by
  unfold evenBytes
  split
  · rename_i hodd
    rw [bytesToShorts_length, List.length_dropLast]
    omega
  · exact bytesToShorts_length pcm

theorem combinedSamples_stream_length (st : LeftoverState) (shorts : List Int) :
    (combinedSamples st shorts true).length = st.leftover.length + shorts.length := by
  unfold combinedSamples
  split
  · simp
  · rename_i hc
    push_neg at hc
    have : st.leftover = [] := by
      by_contra hne
      exact hne (hc rfl).1
    simp [this]

theorem framesOf_length (c : List Int) : (framesOf c).length = c.length / FRAME_SIZE := by
  simp [framesOf]

/-- Core accounting for one streaming call: the samples entering the
call (previous leftover plus `⌊bytes/2⌋` fresh samples) are exactly the
full frames emitted plus the new leftover. -/
theorem pcmToOpus_stream_account (st : LeftoverState) (pcm : List Nat) (h : pcm ≠ []) :
    FRAME_SIZE * ((pcmToOpus st pcm true).1.length)
      + ((pcmToOpus st pcm true).2.leftover.length)
      = st.leftover.length + pcm.length / 2 := by
  have hchar : pcmToOpus st pcm true =
      (framesOf (combinedSamples st (bytesToShorts (evenBytes pcm)) true),
       if 0 < (combinedSamples st (bytesToShorts (evenBytes pcm)) true).length % FRAME_SIZE
       then { leftover := (combinedSamples st (bytesToShorts (evenBytes pcm)) true).drop
                ((combinedSamples st (bytesToShorts (evenBytes pcm)) true).length
                  / FRAME_SIZE * FRAME_SIZE),
              isFirst := nextIsFirst st true }
       else LeftoverState.init) := by
    unfold pcmToOpus
    rw [if_neg h]
    rfl
  rw [hchar]
  have hc := combinedSamples_stream_length st (bytesToShorts (evenBytes pcm))
  rw [shorts_of_evenBytes_length] at hc
  set c := combinedSamples st (bytesToShorts (evenBytes pcm)) true with hcdef
  have hdm := Nat.div_add_mod c.length FRAME_SIZE
  by_cases hrem : 0 < c.length % FRAME_SIZE
  · rw [if_pos hrem]
    simp only [framesOf_length, List.length_drop]
    simp only [FRAME_SIZE] at *
    omega
  · rw [if_neg hrem]
    simp only [framesOf_length, LeftoverState.init, List.length_nil]
    simp only [FRAME_SIZE] at *
    omega

/-! ## Device MCP tools pagination (`app/dialogue/device_mcp.py`)

`DeviceMcpService._send_tools_list` is an async loop whose only
external interaction is one `tools/list` request per invocation; the
device's successive responses are modelled as a list of
`(tools, nextCursor)` pairs consumed in order (an exhausted list stands
for a timed-out request, which also ends the loop).  The session's tool
registry is a dict keyed by function name, modelled as an
insertion-ordered list of distinct names. -/

/-- `ToolsSessionHolder.register_function`: dict insert — a re-inserted
key keeps its original position, so registration under an existing name
does not grow the registry. -/
def registerFunction (registry : List String) (name : String) : List String :=
  if name ∈ registry then registry else registry ++ [name]

/-- `mcp_<name.replace('.', '_')>` -/
def mcpFuncName (name : String) : String :=
  "mcp_" ++ String.mk (name.toList.map (fun c => if c = '.' then '_' else c))

/-- `DeviceMcpService._send_tools_list`, with `registry` the current
registered function names and each list element one device response.
Returns the registry after the loop together with the number of
`tools/list` requests sent. -/
def sendToolsList (maxToolsCount : Nat) (registry : List String) :
    List (List String × Option String) → List String × Nat
  | [] => (registry, 1)
  | (tools, nextCursor) :: rest =>
    if tools = [] then (registry, 1)
    else if maxToolsCount < registry.length + tools.length then (registry, 1)
    else
      let registry1 := tools.foldl (fun r t => registerFunction r (mcpFuncName t)) registry
      match nextCursor with
      | some c =>
        if c = "" then (registry1, 1)
        else ((sendToolsList maxToolsCount registry1 rest).1,
              (sendToolsList maxToolsCount registry1 rest).2 + 1)
      | none => (registry1, 1)

/-- Concrete device tool pages used in the pagination scenario:
`n` distinct tool names with a given prefix. -/
def mkToolNames (pfx : String) (n : Nat) : List String :=
  (List.range n).map (fun i => pfx ++ Nat.repr i)

/-- The scenario of spec Scenario F: first response 20 tools with
`nextCursor="c2"`, second response 15 tools with empty `nextCursor`. -/
def scenarioResponses : List (List String × Option String) :=
  [(mkToolNames "tool." 20, some "c2"), (mkToolNames "extra." 15, some "")]

theorem registerFunction_length_le (registry : List String) (name : String) :
    (registerFunction registry name).length ≤ registry.length + 1 := by
  unfold registerFunction
  split <;> simp

theorem foldl_registerFunction_length (registry : List String) (tools : List String) :
    (tools.foldl (fun r t => registerFunction r (mcpFuncName t)) registry).length
      ≤ registry.length + tools.length := by
  induction tools generalizing registry with
  | nil => simp
  | cons t rest ih =>
    simp only [List.foldl_cons, List.length_cons]
    calc (rest.foldl (fun r t => registerFunction r (mcpFuncName t))
            (registerFunction registry (mcpFuncName t))).length
        ≤ (registerFunction registry (mcpFuncName t)).length + rest.length := ih _
      _ ≤ registry.length + 1 + rest.length := by
          have := registerFunction_length_le registry (mcpFuncName t)
          omega
      _ = registry.length + (rest.length + 1) := by omega

/-- The registered-tool cap is respected: if the registry starts within
the cap, it stays within the cap after the pagination loop. -/
theorem sendToolsList_cap (maxToolsCount : Nat)
    (responses : List (List String × Option String)) (registry : List String)
    (h : registry.length ≤ maxToolsCount) :
    (sendToolsList maxToolsCount registry responses).1.length ≤ maxToolsCount := by
  induction responses generalizing registry with
  | nil => simpa [sendToolsList]
  | cons resp rest ih =>
    obtain ⟨tools, nextCursor⟩ := resp
    unfold sendToolsList
    split
    · simpa
    · split
      · simpa
      · rename_i hfit
        push_neg at hfit
        have hr1 : (tools.foldl (fun r t => registerFunction r (mcpFuncName t)) registry).length
            ≤ maxToolsCount := by
          have := foldl_registerFunction_length registry tools
          omega
        match nextCursor with
        | some c =>
          by_cases hcz : c = ""
          · simpa [hcz]
          · simpa [hcz] using ih _ hr1
        | none => simpa

/-! ## Window-trim helper lemmas -/

theorem windowTrim_length_le (maxMessages : Nat) (l : List ChatMessage) :
    (windowTrim maxMessages l).length ≤ maxMessages + 1 := by
  induction l using windowTrim.induct maxMessages with
  | case1 l h1 h2 ih =>
    rw [windowTrim, dif_pos h1, if_pos h2]
    exact ih
  | case2 l h1 h2 =>
    rw [windowTrim, dif_pos h1, if_neg h2]
    omega
  | case3 l h1 =>
    rw [windowTrim, dif_neg h1]
    omega

theorem windowTrim_eq_drop (maxMessages : Nat) (l : List ChatMessage) :
    ∃ k, windowTrim maxMessages l = l.drop (2 * k) := by
  induction l using windowTrim.induct maxMessages with
  | case1 l h1 h2 ih =>
    obtain ⟨k, hk⟩ := ih
    refine ⟨k + 1, ?_⟩
    rw [windowTrim, dif_pos h1, if_pos h2, hk, List.drop_drop]
    congr 1
    omega
  | case2 l h1 h2 =>
    refine ⟨0, ?_⟩
    rw [windowTrim, dif_pos h1, if_neg h2]
    simp
  | case3 l h1 =>
    refine ⟨0, ?_⟩
    rw [windowTrim, dif_neg h1]
    simp

/-! ## Streaming-encode invariant helper -/

theorem runStream_leftover_invariant (chunks : List (List Nat)) :
    ∀ st : LeftoverState, (∀ c ∈ chunks, c.length % 2 = 0) →
    (1920 : ℤ) ∣ (2 * (st.leftover.length : ℤ) + (totalPcmBytes chunks : ℤ)
        - 2 * ((runStreamState st chunks).leftover.length : ℤ)) := by
  induction chunks with
  | nil =>
    intro st _
    simp [runStreamState, totalPcmBytes]
  | cons c rest ih =>
    intro st h
    have hc : c.length % 2 = 0 := h c (by simp)
    have hrest : ∀ x ∈ rest, x.length % 2 = 0 := fun x hx => h x (by simp [hx])
    have hrun : runStreamState st (c :: rest) = runStreamState (pcmToOpus st c true).2 rest := by
      simp [runStreamState]
    have htot : totalPcmBytes (c :: rest) = c.length + totalPcmBytes rest := by
      simp [totalPcmBytes]
    by_cases hce : c = []
    · have hst1 : (pcmToOpus st c true).2 = st := by
        rw [hce]
        simp [pcmToOpus]
      obtain ⟨m, hm⟩ := ih st hrest
      refine ⟨m, ?_⟩
      rw [hrun, hst1, htot, hce]
      push_cast
      simp only [List.length_nil]
      omega
    · have hacc := pcmToOpus_stream_account st c hce
      obtain ⟨m, hm⟩ := ih (pcmToOpus st c true).2 hrest
      refine ⟨((pcmToOpus st c true).1.length : ℤ) + m, ?_⟩
      rw [hrun, htot]
      have hfs : FRAME_SIZE = 960 := rfl
      rw [hfs] at hacc
      push_cast
      omega

/-! ## Claim theorems -/

/-- C1 counterexample: in the Scenario-F input (first page 20 tools with
`nextCursor="c2"`, second page 15 tools with empty cursor,
`max_tools_count=32`) the code registers 20 tools, not the claimed 32:
the second page would exceed the cap and is skipped entirely. -/
theorem C1_pagination_cex :
    (sendToolsList 32 [] scenarioResponses).1.length ≠ 32 ∧
    (sendToolsList 32 [] scenarioResponses).1.length = 20 := by
  decide

/-- C1 (amended): pagination stops when `nextCursor` is empty or when
registering the next page would exceed `max_tools_count`; a page that
would exceed the cap is skipped entirely (no partial registration).  In
the Scenario-F input exactly the 20 first-page tools are registered and
exactly 2 `tools/list` requests are sent; in general the registry never
exceeds the cap once within it. -/
theorem C1_pagination (maxToolsCount : Nat)
    (responses : List (List String × Option String)) (registry : List String)
    (h : registry.length ≤ maxToolsCount) :
    (sendToolsList maxToolsCount registry responses).1.length ≤ maxToolsCount ∧
    (sendToolsList 32 [] scenarioResponses).1 = (mkToolNames "tool." 20).map mcpFuncName ∧
    (sendToolsList 32 [] scenarioResponses).2 = 2 := by
  refine ⟨sendToolsList_cap maxToolsCount responses registry h, by decide, by decide⟩

/-- Witness for C1_pagination at the Scenario-F input. -/
theorem C1_pagination_witness :
    ([] : List String).length ≤ 32 ∧
    ((sendToolsList 32 [] scenarioResponses).1.length ≤ 32 ∧
     (sendToolsList 32 [] scenarioResponses).1 = (mkToolNames "tool." 20).map mcpFuncName ∧
     (sendToolsList 32 [] scenarioResponses).2 = 2) :=
  ⟨by decide, C1_pagination 32 scenarioResponses [] (by decide)⟩

/-- C5 counterexample: a single streaming call supplying one PCM byte
leaves an empty leftover, so supplied bytes minus leftover bytes is 1,
which is not divisible by 1920 (the trailing odd byte was discarded,
never consumed into a sample). -/
theorem C5_stream_cex :
    ¬ ((totalPcmBytes [[7]] : ℤ)
        - 2 * (((runStreamState LeftoverState.init [[7]]).leftover.length : ℤ))) % 1920 = 0 := by
  decide

/-- C5 (amended): for every finite sequence of streaming encode calls
in which each supplied PCM buffer has even byte length, the total bytes
supplied minus the bytes held in the leftover buffer after the last
call is congruent to 0 modulo 1920. -/
theorem C5_stream_invariant (chunks : List (List Nat))
    (h : ∀ c ∈ chunks, c.length % 2 = 0) :
    ((totalPcmBytes chunks : ℤ)
      - 2 * (((runStreamState LeftoverState.init chunks).leftover.length : ℤ))) % 1920 = 0 := by
  have hd := runStream_leftover_invariant chunks LeftoverState.init h
  have hd2 : (1920 : ℤ) ∣ ((totalPcmBytes chunks : ℤ)
      - 2 * (((runStreamState LeftoverState.init chunks).leftover.length : ℤ))) := by
    have hz : ((LeftoverState.init.leftover.length : ℤ)) = 0 := by simp [LeftoverState.init]
    rw [hz] at hd
    simpa using hd
  exact Int.emod_eq_zero_of_dvd hd2

/-- Witness for C5_stream_invariant on one even-length chunk. -/
theorem C5_stream_invariant_witness :
    (∀ c ∈ [[0, 0]], List.length c % 2 = 0) ∧
    ((totalPcmBytes [[0, 0]] : ℤ)
      - 2 * (((runStreamState LeftoverState.init [[0, 0]]).leftover.length : ℤ))) % 1920 = 0 :=
  ⟨by decide, C5_stream_invariant [[0, 0]] (by decide)⟩

/-- C6 counterexample: taking the "chat message" to be the ROLLBACK
sentinel itself falsifies the round-trip — starting from a one-message
list, add(ROLLBACK) pops the entry and a second add(ROLLBACK) leaves
the list empty rather than restoring it. -/
theorem C6_rollback_cex :
    Conversation.add
        (Conversation.add [{ role := "user", content := some "hi", metadata := [] }]
          rollbackMessage)
        rollbackMessage
      ≠ [{ role := "user", content := some "hi", metadata := [] }] := by
  decide

/-- C6 (amended): for every conversation state and every chat message
`m` other than the ROLLBACK sentinel, add(m) followed by add(ROLLBACK)
restores the stored list exactly. -/
theorem C6_rollback (msgs : List ChatMessage) (m : ChatMessage) (h : m ≠ rollbackMessage) :
    Conversation.add (Conversation.add msgs m) rollbackMessage = msgs := by
  unfold Conversation.add
  rw [if_neg h, if_pos rfl]
  exact List.dropLast_concat

/-- Witness for C6_rollback. -/
theorem C6_rollback_witness :
    ({ role := "user", content := some "hi", metadata := [] } : ChatMessage) ≠ rollbackMessage ∧
    Conversation.add
        (Conversation.add [] { role := "user", content := some "hi", metadata := [] })
        rollbackMessage
      = [] :=
  ⟨by decide, C6_rollback [] { role := "user", content := some "hi", metadata := [] } (by decide)⟩

/-- C7: every serialization trims the stored list to at most
`max_messages + 1` entries by dropping the two oldest entries per
overflow (the result is the original list minus an even-length oldest
chunk); the system prompt, when produced, is prepended to the payload
while the stored component stays exactly the trimmed list. -/
theorem C7_window (roleDesc : Option String) (maxMessages : Nat) (stored : List ChatMessage) :
    (windowMessages roleDesc maxMessages stored).2.length ≤ maxMessages + 1 ∧
    (∃ k, (windowMessages roleDesc maxMessages stored).2 = stored.drop (2 * k)) ∧
    (∀ s, roleSystemMessage roleDesc = some s →
      (windowMessages roleDesc maxMessages stored).1
        = s :: (windowMessages roleDesc maxMessages stored).2) ∧
    (roleSystemMessage roleDesc = none →
      (windowMessages roleDesc maxMessages stored).1
        = (windowMessages roleDesc maxMessages stored).2) := by
  refine ⟨?_, ?_, ?_, ?_⟩
  · simpa [windowMessages] using
      (by cases hr : roleSystemMessage roleDesc <;>
            simp [windowMessages, hr, windowTrim_length_le] :
        (windowMessages roleDesc maxMessages stored).2.length ≤ maxMessages + 1)
  · obtain ⟨k, hk⟩ := windowTrim_eq_drop maxMessages stored
    exact ⟨k, by cases hr : roleSystemMessage roleDesc <;> simp [windowMessages, hr, hk]⟩
  · intro s hs
    simp [windowMessages, hs]
  · intro hs
    simp [windowMessages, hs]

/-- Witness for C7_window: a two-entry store with `max_messages = 0`
and a non-empty system prompt. -/
theorem C7_window_witness :
    (windowMessages (some "prompt") 0
        [{ role := "user", content := some "a", metadata := [] },
         { role := "assistant", content := some "b", metadata := [] }]).2.length ≤ 0 + 1 ∧
    (∃ k, (windowMessages (some "prompt") 0
        [{ role := "user", content := some "a", metadata := [] },
         { role := "assistant", content := some "b", metadata := [] }]).2
      = [{ role := "user", content := some "a", metadata := [] },
         { role := "assistant", content := some "b", metadata := [] }].drop (2 * k)) ∧
    (windowMessages (some "prompt") 0
        [{ role := "user", content := some "a", metadata := [] },
         { role := "assistant", content := some "b", metadata := [] }]).1
      = { role := "system", content := some "prompt", metadata := [] }
        :: (windowMessages (some "prompt") 0
              [{ role := "user", content := some "a", metadata := [] },
               { role := "assistant", content := some "b", metadata := [] }]).2 := by
  have h := C7_window (some "prompt") 0
    [{ role := "user", content := some "a", metadata := [] },
     { role := "assistant", content := some "b", metadata := [] }]
  exact ⟨h.1, h.2.1, h.2.2.1 _ (by decide)⟩

/-- C8: on the provider-neutral domain `[0.5, 2.0]` the adapters map a
pitch/speed value exactly as specified — Aliyun NLS to
`round((v-1)*500)` (whose value already lies in the clamp range
`[-500,500]`, indeed in `[-250,500]`), Xfyun to
`round((v-0.5)*100/1.5)` (already in `[0,100]`), and MiniMax to
`round((v-1)*24)` clamped into `[-12,12]`. -/
theorem C8_tts_value_mapping (v : ℚ) (h1 : 1/2 ≤ v) (h2 : v ≤ 2) :
    (toNlsValue v = pythonRound ((v - 1) * 500)
      ∧ -250 ≤ toNlsValue v ∧ toNlsValue v ≤ 500) ∧
    (toXfyunValue v = pythonRound ((v - 1/2) * 100 / (3/2))
      ∧ 0 ≤ toXfyunValue v ∧ toXfyunValue v ≤ 100) ∧
    (-12 ≤ minimaxPitch v ∧ minimaxPitch v ≤ 12) := by
  have hnlsLo : ((-250 : ℤ) : ℚ) ≤ (v - 1) * 500 := by push_cast; linarith
  have hnlsHi : (v - 1) * 500 ≤ ((500 : ℤ) : ℚ) := by push_cast; linarith
  have hrLo := le_pythonRound hnlsLo
  have hrHi := pythonRound_le hnlsHi
  have hnls : toNlsValue v = pythonRound ((v - 1) * 500) := by
    unfold toNlsValue
    rw [min_eq_right hrHi, max_eq_right (by omega)]
  have hxfLo : ((0 : ℤ) : ℚ) ≤ (v - 1/2) * 100 / (3/2) := by push_cast; linarith
  have hxfHi : (v - 1/2) * 100 / (3/2) ≤ ((100 : ℤ) : ℚ) := by push_cast; linarith
  have hxrLo := le_pythonRound hxfLo
  have hxrHi := pythonRound_le hxfHi
  have hxf : toXfyunValue v = pythonRound ((v - 1/2) * 100 / (3/2)) := by
    unfold toXfyunValue
    rw [min_eq_right hxrHi, max_eq_right (by omega)]
  refine ⟨⟨hnls, ?_, ?_⟩, ⟨hxf, ?_, ?_⟩, ?_, ?_⟩
  · rw [hnls]; exact hrLo
  · rw [hnls]; exact hrHi
  · rw [hxf]; exact hxrLo
  · rw [hxf]; exact hxrHi
  · exact le_max_left _ _
  · unfold minimaxPitch
    exact max_le (by omega) (min_le_left _ _)

/-- Witness for C8_tts_value_mapping at `v = 1`. -/
theorem C8_tts_value_mapping_witness :
    (1 : ℚ)/2 ≤ 1 ∧ (1 : ℚ) ≤ 2 ∧
    ((toNlsValue 1 = pythonRound ((1 - 1) * 500)
        ∧ -250 ≤ toNlsValue 1 ∧ toNlsValue 1 ≤ 500) ∧
     (toXfyunValue 1 = pythonRound ((1 - 1/2) * 100 / (3/2))
        ∧ 0 ≤ toXfyunValue 1 ∧ toXfyunValue 1 ≤ 100) ∧
     (-12 ≤ minimaxPitch 1 ∧ minimaxPitch 1 ≤ 12)) :=
  ⟨by norm_num, by norm_num, C8_tts_value_mapping 1 (by norm_num) (by norm_num)⟩

/-- C9: an empty PCM buffer returns an empty frame list and leaves the
leftover state untouched; a non-empty buffer of `n` bytes contributes
exactly `⌊n/2⌋` 16-bit samples (a trailing odd byte is discarded), and
those samples are accounted for exactly by the emitted 960-sample
frames plus the new leftover. -/
theorem C9_odd_byte_discard :
    (∀ (st : LeftoverState) (isStream : Bool), pcmToOpus st [] isStream = ([], st)) ∧
    (∀ pcm : List Nat, (bytesToShorts (evenBytes pcm)).length = pcm.length / 2) ∧
    (∀ (st : LeftoverState) (pcm : List Nat), pcm ≠ [] →
      FRAME_SIZE * ((pcmToOpus st pcm true).1.length)
        + ((pcmToOpus st pcm true).2.leftover.length)
        = st.leftover.length + pcm.length / 2) := by
  refine ⟨?_, shorts_of_evenBytes_length, pcmToOpus_stream_account⟩
  intro st isStream
  simp [pcmToOpus]

/-- Witness for C9_odd_byte_discard on a 3-byte (odd) buffer. -/
theorem C9_odd_byte_discard_witness :
    ([0, 0, 0] : List Nat) ≠ [] ∧
    FRAME_SIZE * ((pcmToOpus LeftoverState.init [0, 0, 0] true).1.length)
      + ((pcmToOpus LeftoverState.init [0, 0, 0] true).2.leftover.length)
      = LeftoverState.init.leftover.length + ([0, 0, 0] : List Nat).length / 2 :=
  ⟨by decide, C9_odd_byte_discard.2.2 LeftoverState.init [0, 0, 0] (by decide)⟩

/-! ## Emoji and kaomoji utilities (`app/utils/emoji_utils.py`)

Text is modelled as `List Char`.  The Python regexes are hand-compiled
scanners with the exact semantics of `re` on these patterns (leftmost
match, alternatives tried left to right, greedy quantifiers).  Note two
quirks of the source patterns, preserved here: `_WHITESPACE_PATTERN`
is `re.compile(r"\\s+")`, which matches a literal backslash followed by
one or more letters `s` (not whitespace); and the kaomoji alternation
contains doubled backslashes, so e.g. its third branch matches a
backslash-or-star, one or two of `_`/`-`, then a backslash-or-star. -/

/-- `_is_emoji` codepoint ranges. -/
def isEmojiCode (code : Nat) : Bool :=
  decide ((0x1F600 ≤ code ∧ code ≤ 0x1F64F)
    ∨ (0x1F300 ≤ code ∧ code ≤ 0x1F5FF)
    ∨ (0x1F680 ≤ code ∧ code ≤ 0x1F6FF)
    ∨ (0x1F900 ≤ code ∧ code ≤ 0x1F9FF)
    ∨ (0x1FA70 ≤ code ∧ code ≤ 0x1FAFF)
    ∨ (0x2600 ≤ code ∧ code ≤ 0x26FF)
    ∨ (0x2700 ≤ code ∧ code ≤ 0x27BF))

/-- Python `str.strip()` whitespace (ASCII part; the exotic Unicode
spaces do not occur in the modelled inputs). -/
def isPyWhitespace (c : Char) : Bool :=
  c = ' ' || c = '\t' || c = '\n' || c = '\r' || c = '\x0b' || c = '\x0c'

/-- Python `str.strip()`. -/
def pyStrip (l : List Char) : List Char :=
  ((l.dropWhile isPyWhitespace).reverse.dropWhile isPyWhitespace).reverse

/-- Scanner for `_HTML_TAG_PATTERN.sub("", text)` with pattern
`<[^>]+>`: with `skip = 0` the head is examined; a positive `skip`
discards that many characters already consumed by a match.  A `<` whose
following run of non-`>` characters is non-empty and terminated by `>`
starts a match covering the run and the closing `>`. -/
def stripHtmlTagsAux : List Char → Nat → List Char
  | [], _ => []
  | _ :: rest, skip + 1 => stripHtmlTagsAux rest skip
  | c :: rest, 0 =>
    if c = '<' ∧ 1 ≤ (rest.takeWhile (fun x => x ≠ '>')).length
        ∧ rest.drop (rest.takeWhile (fun x => x ≠ '>')).length ≠ []
    then stripHtmlTagsAux rest ((rest.takeWhile (fun x => x ≠ '>')).length + 1)
    else c :: stripHtmlTagsAux rest 0

/-- `_HTML_TAG_PATTERN.sub("", text)`. -/
def stripHtmlTags (l : List Char) : List Char := stripHtmlTagsAux l 0

/-- `_SPECIAL_CHARS_PATTERN.sub("", text)` with class `[@#$%&*]`. -/
def isSpecialChar (c : Char) : Bool :=
  c = '@' || c = '#' || c = '$' || c = '%' || c = '&' || c = '*'

/-- Scanner for `_WHITESPACE_PATTERN.sub(" ", text)` where the pattern
is the raw string `\\s+`, i.e. a literal backslash followed by one or
more `s`; each match is replaced by a single space. -/
def subBackslashSAux : List Char → Nat → List Char
  | [], _ => []
  | _ :: rest, skip + 1 => subBackslashSAux rest skip
  | c :: rest, 0 =>
    if c = '\\' ∧ 1 ≤ (rest.takeWhile (fun x => x = 's')).length
    then ' ' :: subBackslashSAux rest (rest.takeWhile (fun x => x = 's')).length
    else c :: subBackslashSAux rest 0

/-- `_WHITESPACE_PATTERN.sub(" ", text)` (literal `\\s+`). -/
def subBackslashS (l : List Char) : List Char := subBackslashSAux l 0

/-- Characters matched by `[\\\\*]` (a backslash or a star). -/
def kaoEnds (c : Char) : Bool := c = '\\' || c = '*'

/-- Characters matched by `[_-]`. -/
def kaoMids (c : Char) : Bool := c = '_' || c = '-'

/-- Characters matched by `[)D(]`. -/
def smileEnds (c : Char) : Bool := c = ')' || c = 'D' || c = '('

/-- Branch `[(][^)]{1,10}[)]` of the kaomoji pattern: matches at the
head iff the run of non-`)` characters after `(` has length 1..10 and
is terminated by `)` (greedy matching with backtracking reduces to
exactly this condition). -/
def branchParen : List Char → Option Nat
  | '(' :: rest =>
    if 1 ≤ (rest.takeWhile (fun x => x ≠ ')')).length
        ∧ (rest.takeWhile (fun x => x ≠ ')')).length ≤ 10
        ∧ rest.drop (rest.takeWhile (fun x => x ≠ ')')).length ≠ []
    then some ((rest.takeWhile (fun x => x ≠ ')')).length + 2)
    else none
  | _ => none

/-- Branch `[<][^>]{1,10}[>]`. -/
def branchAngle : List Char → Option Nat
  | '<' :: rest =>
    if 1 ≤ (rest.takeWhile (fun x => x ≠ '>')).length
        ∧ (rest.takeWhile (fun x => x ≠ '>')).length ≤ 10
        ∧ rest.drop (rest.takeWhile (fun x => x ≠ '>')).length ≠ []
    then some ((rest.takeWhile (fun x => x ≠ '>')).length + 2)
    else none
  | _ => none

/-- Branch `[\\\\*][_-]{1,2}[\\\\*]` (greedy: two middles tried before one). -/
def branchStar : List Char → Option Nat
  | c0 :: m1 :: m2 :: c2 :: _ =>
    if kaoEnds c0 ∧ kaoMids m1 ∧ kaoMids m2 ∧ kaoEnds c2 then some 4
    else if kaoEnds c0 ∧ kaoMids m1 ∧ kaoEnds m2 then some 3
    else none
  | [c0, m1, m2] =>
    if kaoEnds c0 ∧ kaoMids m1 ∧ kaoEnds m2 then some 3 else none
  | _ => none

/-- Branch `\\\\o/` (two literal backslashes, then `o/`). -/
def branchBackO : List Char → Option Nat
  | '\\' :: '\\' :: 'o' :: '/' :: _ => some 4
  | _ => none

/-- Branch `:-?[)D(]` (greedy: the `-` is tried first; backtracking to
the empty option can never succeed since `-` is not in the class). -/
def branchSmile : List Char → Option Nat
  | ':' :: '-' :: c :: _ => if smileEnds c then some 3 else none
  | ':' :: c :: _ => if smileEnds c then some 2 else none
  | _ => none

/-- Branch `;-?[)]`. -/
def branchWink : List Char → Option Nat
  | ';' :: '-' :: ')' :: _ => some 3
  | ';' :: '-' :: _ => none
  | ';' :: ')' :: _ => some 2
  | _ => none

/-- Branch `=\\\\?[_/]` (an `=`, a backslash, an optional second
backslash, then `_` or `/`). -/
def branchEq : List Char → Option Nat
  | '=' :: '\\' :: '\\' :: c :: _ =>
    if c = '_' || c = '/' then some 4 else none
  | '=' :: '\\' :: c :: _ => if c = '_' || c = '/' then some 3 else none
  | _ => none

/-- Length of the `_KAOMOJI_PATTERN` match anchored at the head of the
list, if any; alternatives are tried in the pattern's order.  Every
branch matches at least 2 characters. -/
def kaomojiMatchLen (l : List Char) : Option Nat :=
  branchParen l <|> branchAngle l <|> branchStar l <|> branchBackO l
    <|> branchSmile l <|> branchWink l <|> branchEq l

/-- Scanner for `_KAOMOJI_PATTERN.sub("", text)`: remove every
non-overlapping leftmost match (a match of length `n` consumes the head
character plus `n - 1` further characters). -/
def filterKaomojiAux : List Char → Nat → List Char
  | [], _ => []
  | _ :: rest, skip + 1 => filterKaomojiAux rest skip
  | c :: rest, 0 =>
    match kaomojiMatchLen (c :: rest) with
    | some n => filterKaomojiAux rest (n - 1)
    | none => c :: filterKaomojiAux rest 0

/-- `_KAOMOJI_PATTERN.sub("", text)`. -/
def filterKaomoji (l : List Char) : List Char := filterKaomojiAux l 0

/-- `contains_kaomoji`: does the pattern match anywhere? -/
def containsKaomojiAux : List Char → Bool
  | [] => false
  | c :: rest => (kaomojiMatchLen (c :: rest)).isSome || containsKaomojiAux rest

/-- `contains_kaomoji(text)` (the `not text` early return coincides
with the scan returning false on `[]`). -/
def containsKaomoji (l : List Char) : Bool := containsKaomojiAux l

/-- `clean_text`: drop tabs/newlines, strip HTML tags, drop
`[@#$%&*]`, apply the (literal) `\\s+` substitution, strip. -/
def cleanText (l : List Char) : List Char :=
  pyStrip (subBackslashS
    ((stripHtmlTags (l.filter (fun c => ¬(c = '\t' ∨ c = '\n' ∨ c = '\r')))).filter
      (fun c => ¬ isSpecialChar c = true)))

/-- The per-character loop of `process_sentence`: emoji characters are
removed and each contributes one `"happy"` mood, in order. -/
def emojiSplit : List Char → List Char × List String
  | [] => ([], [])
  | c :: rest =>
    if isEmojiCode c.toNat
    then ((emojiSplit rest).1, "happy" :: (emojiSplit rest).2)
    else (c :: (emojiSplit rest).1, (emojiSplit rest).2)

/-- `process_sentence(text, moods)`: returns the cleaned text and the
moods list after the appends (`moods.append` modelled by returning the
extended list). -/
def processSentence (text : List Char) (moods : List String) : List Char × List String :=
  if text = [] then ([], moods)
  else
    (pyStrip (emojiSplit (filterKaomoji (cleanText text))).1,
     moods ++ (emojiSplit (filterKaomoji (cleanText text))).2)

theorem emojiSplit_fst (l : List Char) :
    (emojiSplit l).1 = l.filter (fun c => !(isEmojiCode c.toNat)) := by
  induction l with
  | nil => simp [emojiSplit]
  | cons c rest ih =>
    by_cases h : isEmojiCode c.toNat <;> simp [emojiSplit, h, ih]

theorem emojiSplit_snd (l : List Char) :
    (emojiSplit l).2 = List.replicate (l.countP (fun c => isEmojiCode c.toNat)) "happy" := by
  induction l with
  | nil => simp [emojiSplit]
  | cons c rest ih =>
    by_cases h : isEmojiCode c.toNat <;>
      simp [emojiSplit, h, ih, List.countP_cons, List.replicate_succ]

theorem mem_pyStrip {c : Char} {l : List Char} (h : c ∈ pyStrip l) : c ∈ l := by
  unfold pyStrip at h
  rw [List.mem_reverse] at h
  have h1 := (List.dropWhile_sublist (l := (l.dropWhile isPyWhitespace).reverse)
    (p := isPyWhitespace)).subset h
  rw [List.mem_reverse] at h1
  exact (List.dropWhile_sublist (l := l) (p := isPyWhitespace)).subset h1

/-- C10: for every input text the sentence speech-text cleaner returns
a text containing no character from the emoji codepoint ranges, and the
moods it appends are exactly one `"happy"` per emoji character it
processed, regardless of which emoji appeared. -/
theorem C10_process_sentence (text : List Char) (moods : List String) :
    (∀ c ∈ (processSentence text moods).1, isEmojiCode c.toNat = false) ∧
    (processSentence text moods).2
      = moods ++ List.replicate
          ((filterKaomoji (cleanText text)).countP (fun c => isEmojiCode c.toNat)) "happy" := by
  unfold processSentence
  by_cases ht : text = []
  · rw [if_pos ht]
    refine ⟨by simp, ?_⟩
    rw [ht]
    have : cleanText [] = [] := by rfl
    rw [this]
    have : filterKaomoji [] = [] := by rfl
    rw [this]
    simp
  · rw [if_neg ht]
    constructor
    · intro c hc
      have hmem := mem_pyStrip hc
      rw [emojiSplit_fst] at hmem
      have := List.of_mem_filter hmem
      simpa using this
    · rw [emojiSplit_snd]

/-- Witness for C10_process_sentence on a text containing one emoji. -/
theorem C10_process_sentence_witness :
    isEmojiCode 'a'.toNat = false ∧
    (processSentence ['a', '😀'] []).2
      = [] ++ List.replicate
          ((filterKaomoji (cleanText ['a', '😀'])).countP (fun c => isEmojiCode c.toNat)) "happy" :=
  ⟨(C10_process_sentence ['a', '😀'] []).1 'a' (by decide),
   (C10_process_sentence ['a', '😀'] []).2⟩

/-! ## Sentencer (`app/dialogue/dialogue_helper.py`)

`DialogueHelper.on_token` over `List Char` tokens.  Python's Unicode
`\w` is modelled as ASCII alphanumerics plus underscore (the CJK range
`一-鿿` is listed separately in the source class and kept
separately here); this covers every character class the surrounding
code distinguishes. -/

/-- `SENTENCE_END_PATTERN = [。！？!?]` applied to a single character. -/
def isEndChar (c : Char) : Bool :=
  c = '。' || c = '！' || c = '？' || c = '!' || c = '?'

/-- `PAUSE_PATTERN = [，、；,;]`. -/
def isPauseChar (c : Char) : Bool :=
  c = '，' || c = '、' || c = '；' || c = ',' || c = ';'

/-- `NEWLINE_PATTERN = [\n\r]`. -/
def isNewlineChar (c : Char) : Bool := c = '\n' || c = '\r'

/-- Characters surviving `re.sub(r"[^\w一-鿿]", "", text)`:
word characters or CJK ideographs. -/
def isWordChar (c : Char) : Bool :=
  c.isAlphanum || c = '_' || decide (0x4e00 ≤ c.toNat ∧ c.toNat ≤ 0x9fff)

/-- `NUMBER_PATTERN.search` for `\d+\.\d+`: such a match exists iff
some digit, `.`, digit triple occurs consecutively. -/
def hasNumberPattern : List Char → Bool
  | a :: b :: c :: rest =>
    (a.isDigit && b = '.' && c.isDigit) || hasNumberPattern (b :: c :: rest)
  | _ => false

/-- `DialogueHelper._contains_substantial_content`. -/
def containsSubstantialContent (text : List Char) : Bool :=
  if text = [] ∨ (pyStrip text).length < 5 then false
  else 2 ≤ (text.filter (fun c => isWordChar c)).length

/-- The Sentencer's mutable state: `current_sentence` and the
last-20-characters `context_buffer`. -/
structure SentencerState where
  current : List Char
  context : List Char
  deriving DecidableEq

def initSentencer : SentencerState := { current := [], context := [] }

/-- Append one character to the context buffer, keeping the last 20. -/
def appendContext (ctx : List Char) (c : Char) : List Char :=
  if 20 < (ctx ++ [c]).length
  then (ctx ++ [c]).drop ((ctx ++ [c]).length - 20)
  else ctx ++ [c]

/-- The effective `is_end` after the decimal guard (`on_token` lines
33 and 39-42): the raw class test, overridden to `False` for a `.`
when `NUMBER_PATTERN` matches the context buffer. -/
def effectiveIsEnd (context1 : List Char) (c : Char) : Bool :=
  if c = '.' ∧ isEndChar c = true
  then (if hasNumberPattern context1 then false else isEndChar c)
  else isEndChar c

/-- `should_send` for the character just appended, with `current1` and
`context1` the buffers after the append. -/
def shouldSendOf (current1 context1 : List Char) (c : Char) : Bool :=
  (effectiveIsEnd context1 c || isNewlineChar c)
    || ((isPauseChar c || isEmojiCode c.toNat
          || (if 3 ≤ current1.length then containsKaomoji current1 else false))
        && decide (5 ≤ current1.length))

/-- The emitted sentence text: strip, then kaomoji filter. -/
def sentenceOf (current1 : List Char) : List Char := filterKaomoji (pyStrip current1)

/-- One iteration of the `on_token` character loop: returns the new
state and the sentence emitted by this character, if any. -/
def stepChar (st : SentencerState) (c : Char) : SentencerState × Option (List Char) :=
  if shouldSendOf (st.current ++ [c]) (appendContext st.context c) c = true
      ∧ 5 ≤ (st.current ++ [c]).length then
    if containsSubstantialContent (sentenceOf (st.current ++ [c])) = true
    then ({ current := [], context := appendContext st.context c },
          some (sentenceOf (st.current ++ [c])))
    else ({ current := st.current ++ [c], context := appendContext st.context c }, none)
  else ({ current := st.current ++ [c], context := appendContext st.context c }, none)

/-- `DialogueHelper.on_token`: fold `stepChar` over the token,
collecting emitted sentences in order. -/
def onToken (st : SentencerState) : List Char → List (List Char) × SentencerState
  | [] => ([], st)
  | c :: rest =>
    match (stepChar st c).2 with
    | some s => (s :: (onToken (stepChar st c).1 rest).1, (onToken (stepChar st c).1 rest).2)
    | none => ((onToken (stepChar st c).1 rest).1, (onToken (stepChar st c).1 rest).2)

theorem stepChar_emit (st : SentencerState) (c : Char) (s : List Char)
    (h : (stepChar st c).2 = some s) :
    5 ≤ (st.current ++ [c]).length
      ∧ s = sentenceOf (st.current ++ [c])
      ∧ containsSubstantialContent s = true := by
  unfold stepChar at h
  split at h
  · rename_i hcond
    split at h
    · rename_i hsub
      simp only [Prod.snd] at h
      obtain rfl : sentenceOf (st.current ++ [c]) = s := by
        simpa using h
      exact ⟨hcond.2, rfl, hsub⟩
    · simp at h
  · simp at h

theorem onToken_mem_substantial :
    ∀ (tok : List Char) (st : SentencerState) (s : List Char),
      s ∈ (onToken st tok).1 → containsSubstantialContent s = true := by
  intro tok
  induction tok with
  | nil =>
    intro st s h
    simp [onToken] at h
  | cons c rest ih =>
    intro st s h
    unfold onToken at h
    split at h
    · rename_i s0 hs0
      simp only [List.mem_cons] at h
      rcases h with rfl | h
      · exact (stepChar_emit st c s hs0).2.2
      · exact ih _ _ h
    · exact ih _ _ h

/-- C3: a sentence is emitted mid-stream only when the accumulated text
(after this character) has length at least 5 and the emitted text —
the accumulated text trimmed and kaomoji-filtered — passes the
substantial-content test (at least 2 word/CJK characters, alongside the
length recheck); in particular an accumulated text shorter than 5
characters is withheld even when an end-punctuation character
arrives. -/
theorem C3_min_sentence_emission :
    (∀ (st : SentencerState) (c : Char) (s : List Char),
        (stepChar st c).2 = some s →
        5 ≤ (st.current ++ [c]).length
          ∧ s = sentenceOf (st.current ++ [c])
          ∧ containsSubstantialContent s = true) ∧
    (∀ (st : SentencerState) (tok : List Char) (s : List Char),
        s ∈ (onToken st tok).1 → containsSubstantialContent s = true) ∧
    (∀ (st : SentencerState) (c : Char),
        isEndChar c = true → (st.current ++ [c]).length < 5 → (stepChar st c).2 = none) := by
  refine ⟨stepChar_emit, fun st tok s h => onToken_mem_substantial tok st s h, ?_⟩
  intro st c _hend h5
  have hno : ¬(shouldSendOf (st.current ++ [c]) (appendContext st.context c) c = true
      ∧ 5 ≤ (st.current ++ [c]).length) := fun hc => by omega
  unfold stepChar
  rw [if_neg hno]

/-- Witness for C3_min_sentence_emission: an emission at exactly 5
characters, and a withheld end-punctuation at 3 characters. -/
theorem C3_min_sentence_emission_witness :
    (5 ≤ ((['h', 'e', 'l', 'l'] : List Char) ++ ['!']).length
      ∧ ['h', 'e', 'l', 'l', '!'] = sentenceOf (['h', 'e', 'l', 'l'] ++ ['!'])
      ∧ containsSubstantialContent ['h', 'e', 'l', 'l', '!'] = true) ∧
    containsSubstantialContent ['h', 'e', 'l', 'l', '!'] = true ∧
    (stepChar { current := ['a', 'b'], context := [] } '!').2 = none :=
  ⟨C3_min_sentence_emission.1 { current := ['h', 'e', 'l', 'l'], context := [] } '!'
      ['h', 'e', 'l', 'l', '!'] (by decide),
   C3_min_sentence_emission.2.1 { current := ['h', 'e', 'l', 'l'], context := [] } ['!']
      ['h', 'e', 'l', 'l', '!'] (by decide),
   C3_min_sentence_emission.2.2 { current := ['a', 'b'], context := [] } '!'
      (by decide) (by decide)⟩

/-- C4 counterexample: an ASCII `.` with no digit-dot-digit pattern
anywhere in the context buffer is still not treated as sentence-ending
(the claimed equivalence fails in the only-if-absent direction). -/
theorem C4_dot_cex :
    ¬ ((effectiveIsEnd ['a', 'b', 'c', '.'] '.' = true)
        ↔ (hasNumberPattern ['a', 'b', 'c', '.'] = false)) := by
  decide

/-- C4 (amended): an ASCII `.` is never treated as sentence-ending,
because the end-punctuation class `。！？!?` does not contain it and the
decimal guard can only turn `is_end` off; in particular feeding
`"3.14 元"` emits no sentence at the `.` (or anywhere). -/
theorem C4_decimal_dot :
    (∀ ctx : List Char, effectiveIsEnd ctx '.' = false) ∧
    (onToken initSentencer ['3', '.', '1', '4', ' ', '元']).1 = [] := by
  constructor
  · intro ctx
    unfold effectiveIsEnd
    have hdot : isEndChar '.' = false := by decide
    rw [hdot]
    simp
  · decide

/-! ## VAD segmenter (`app/dialogue/vad/vad_service.py`)

`VadService.process_audio` for one session.  External effects are made
explicit: the Opus decoder's output for the incoming chunk is the
`decoded` argument (the real decoder is libopus); the Silero model is
an arbitrary `infer` function threading its hidden state; every
`time.time()` read inside one call returns the `now` argument.  Audio
enhancement is disabled (`vad_audio_enhancement_enabled` defaults to
false and no enhancer is ever created), and role thresholds are the
`VadConfig` arguments.  The `try/except` wrapper is dropped: the model
is total, so the `ERROR` status cannot arise. -/

/-- Python `int()` on a rational: truncation toward zero. -/
def pyInt (q : ℚ) : ℤ := if q < 0 then -⌊-q⌋ else ⌊q⌋

def BUFFER_SIZE : Nat := 512

/-- Thresholds from the role row (defaults from lines 227-230). -/
structure VadConfig where
  speechThreshold : ℚ
  silenceThreshold : ℚ
  energyThreshold : ℚ
  silenceTimeoutMs : ℤ
  tailKeepMs : ℤ

def defaultVadConfig : VadConfig :=
  { speechThreshold := 2/5, silenceThreshold := 3/10,
    energyThreshold := 1/1000, silenceTimeoutMs := 800, tailKeepMs := 300 }

/-- `state.silero_state = [[[0.0] * 128] * 1] * 2`. -/
def initSileroState : List (List (List ℚ)) :=
  List.replicate 2 (List.replicate 1 (List.replicate 128 0))

/-- `_VadState`.  (`probs` is declared in the source but never
written or read and is omitted.) -/
structure VadState where
  speaking : Bool
  speechTime : ℚ
  silenceTime : ℚ
  silenceDurationMs : ℤ
  totalAudioDurationMs : ℤ
  consecutiveSilenceFrames : Nat
  consecutiveSpeechFrames : Nat
  silenceFrameCount : Nat
  avgEnergy : ℚ
  originalProbs : List ℚ
  frameCounter : Nat
  sileroState : List (List (List ℚ))
  preBuffer : List (List Nat)
  preBufferSize : Nat
  maxPreBufferSize : Nat
  pcmData : List (List Nat)
  opusData : List (List Nat)
  pcmAccumulator : List Nat
  lastAccumTime : ℚ

/-- `_VadState.__init__(pre_buffer_ms)` at wall-clock `now`. -/
def mkVadState (preBufferMs : Nat) (now : ℚ) : VadState :=
  { speaking := false, speechTime := 0, silenceTime := 0,
    silenceDurationMs := 0, totalAudioDurationMs := 0,
    consecutiveSilenceFrames := 0, consecutiveSpeechFrames := 0,
    silenceFrameCount := 0, avgEnergy := 0, originalProbs := [],
    frameCounter := 0, sileroState := initSileroState,
    preBuffer := [], preBufferSize := 0, maxPreBufferSize := preBufferMs * 32,
    pcmData := [], opusData := [], pcmAccumulator := [], lastAccumTime := now }

/-- `_VadState.set_speaking`. -/
def VadState.setSpeaking (st : VadState) (speaking : Bool) (now : ℚ) : VadState :=
  if speaking then { st with speaking := speaking, speechTime := now, silenceTime := 0 }
  else if st.silenceTime = 0 then { st with speaking := speaking, silenceTime := now }
  else { st with speaking := speaking }

/-- `_VadState.get_silence_duration`. -/
def VadState.getSilenceDuration (st : VadState) (now : ℚ) : ℤ :=
  if st.silenceTime = 0 then 0 else pyInt ((now - st.silenceTime) * 1000)

/-- `_VadState.update_silence`. -/
def VadState.updateSilence (st : VadState) (isSilent : Bool) (frameDurationMs : ℤ)
    (now : ℚ) : VadState :=
  let st1 := { st with totalAudioDurationMs := st.totalAudioDurationMs + frameDurationMs }
  if isSilent then
    let st2 := { st1 with consecutiveSilenceFrames := st1.consecutiveSilenceFrames + 1,
                          consecutiveSpeechFrames := 0,
                          silenceDurationMs := st1.silenceDurationMs + frameDurationMs }
    if st2.silenceTime = 0 then { st2 with silenceTime := now } else st2
  else
    let st2 := { st1 with consecutiveSpeechFrames := st1.consecutiveSpeechFrames + 1 }
    if 2 ≤ st2.consecutiveSpeechFrames then
      { st2 with consecutiveSilenceFrames := 0, silenceDurationMs := 0,
                 silenceTime := 0, silenceFrameCount := 0 }
    else st2

/-- `_VadState.update_energy`. -/
def VadState.updateEnergy (st : VadState) (energy : ℚ) (isSilent : Bool) : VadState :=
  if st.avgEnergy = 0 then { st with avgEnergy := energy }
  else
    { st with avgEnergy := (if isSilent then (85 : ℚ)/100 else 95/100) * st.avgEnergy
        + (1 - (if isSilent then (85 : ℚ)/100 else 95/100)) * energy }

/-- `_VadState.add_original_prob` (the deque keeps the last 10). -/
def VadState.addOriginalProb (st : VadState) (prob : ℚ) : VadState :=
  let probs := st.originalProbs ++ [prob]
  { st with originalProbs := if 10 < probs.length then probs.drop 1 else probs,
            frameCounter := st.frameCounter + 1 }

/-- The eviction loop of `add_to_pre_buffer`: pop oldest chunks while
the byte size exceeds the cap. -/
def prunePreBuffer (maxSize : Nat) : List (List Nat) → Nat → List (List Nat) × Nat
  | [], size => ([], size)
  | b :: rest, size =>
    if maxSize < size then prunePreBuffer maxSize rest (size - b.length)
    else (b :: rest, size)

/-- `_VadState.add_to_pre_buffer`. -/
def VadState.addToPreBuffer (st : VadState) (data : List Nat) : VadState :=
  if st.speaking then st
  else
    { st with
      preBuffer := (prunePreBuffer st.maxPreBufferSize (st.preBuffer ++ [data])
        (st.preBufferSize + data.length)).1,
      preBufferSize := (prunePreBuffer st.maxPreBufferSize (st.preBuffer ++ [data])
        (st.preBufferSize + data.length)).2 }

/-- `_VadState.drain_pre_buffer` (`b"".join` flattens the chunks). -/
def VadState.drainPreBuffer (st : VadState) : List Nat × VadState :=
  if st.preBuffer = [] then ([], st)
  else (st.preBuffer.flatten, { st with preBuffer := [], preBufferSize := 0 })

/-- `_VadState.accumulate`. -/
def VadState.accumulate (st : VadState) (pcm : List Nat) (now : ℚ) : VadState :=
  if pcm = [] then st
  else { st with pcmAccumulator := st.pcmAccumulator ++ pcm, lastAccumTime := now }

/-- `_VadState.drain_accumulator`. -/
def VadState.drainAccumulator (st : VadState) : List Nat × VadState :=
  (st.pcmAccumulator, { st with pcmAccumulator := [] })

/-- `_VadState.is_accum_timed_out`. -/
def VadState.isAccumTimedOut (st : VadState) (now : ℚ) : Bool :=
  decide ((3 : ℚ)/10 < now - st.lastAccumTime)

/-- `_VadState.add_pcm`. -/
def VadState.addPcm (st : VadState) (pcm : List Nat) : VadState :=
  if pcm = [] then st else { st with pcmData := st.pcmData ++ [pcm] }

/-- `_VadState.add_opus`. -/
def VadState.addOpus (st : VadState) (opus : List Nat) : VadState :=
  if opus = [] then st else { st with opusData := st.opusData ++ [opus] }

/-- Pop `k` trailing elements (the `for _ in range(frames_to_remove)`
loop popping from the end, stopping at empty). -/
def dropLastN (l : List (List Nat)) (k : Nat) : List (List Nat) := l.take (l.length - k)

/-- `VadService._bytes_to_floats`: int16 samples scaled by 1/32768. -/
def bytesToFloats (pcm : List Nat) : List ℚ :=
  (bytesToShorts pcm).map (fun v => (v : ℚ) / 32768)

/-- `VadService._calc_energy`: mean absolute value. -/
def calcEnergy (samples : List ℚ) : ℚ :=
  if samples = [] then 0 else (samples.map (fun x => |x|)).sum / samples.length

/-- `VadService._detect_speech`: run the model on a 512-sample window
(padding short input, sliding with step 256 and taking the max over
long input), threading the hidden state. -/
def detectSpeech (infer : List ℚ → List (List (List ℚ)) → ℚ × List (List (List ℚ)))
    (samples : List ℚ) (silero : List (List (List ℚ))) : ℚ × List (List (List ℚ)) :=
  if samples = [] then (0, silero)
  else if samples.length = BUFFER_SIZE then infer samples silero
  else if samples.length < BUFFER_SIZE then
    infer (samples ++ List.replicate (BUFFER_SIZE - samples.length) 0) silero
  else
    (List.range ((samples.length - BUFFER_SIZE) / (BUFFER_SIZE / 2) + 1)).foldl
      (fun acc i =>
        (max acc.1 (infer ((samples.drop (i * (BUFFER_SIZE / 2))).take BUFFER_SIZE) acc.2).1,
         (infer ((samples.drop (i * (BUFFER_SIZE / 2))).take BUFFER_SIZE) acc.2).2))
      (0, silero)

inductive VadStatus where
  | noSpeech
  | speechStart
  | speechContinue
  | speechEnd
  deriving DecidableEq

structure VadResult where
  status : VadStatus
  data : Option (List Nat)
  deriving DecidableEq

/-- The state-machine branches of `process_audio` (lines 296-343),
over the already-updated state `st1` and the computed `is_speech` /
`is_silence` flags. -/
def vadBranch (cfg : VadConfig) (st1 : VadState) (isSpeech isSilence : Bool)
    (enhancedPcm : List Nat) (now : ℚ) : VadResult × VadState :=
  if st1.speaking = false ∧ isSpeech = true then
    let st2 := ({ st1 with pcmData := [] }).setSpeaking true now
    let st3 := { st2 with silenceFrameCount := 0, pcmAccumulator := [], lastAccumTime := now }
    let pre := st3.drainPreBuffer
    let result := if pre.1 ≠ [] then pre.1 else enhancedPcm
    (⟨VadStatus.speechStart, some result⟩, pre.2.addPcm result)
  else if st1.speaking = true ∧ isSilence = true then
    let silenceDuration := st1.getSilenceDuration now
    if cfg.silenceTimeoutMs < silenceDuration then
      let st2 := st1.setSpeaking false now
      let st3 :=
        if 0 < silenceDuration - cfg.tailKeepMs then
          let framesToRemove : Nat :=
            if 0 < st2.silenceFrameCount ∧ 0 < silenceDuration then
              (min (pyInt ((st2.silenceFrameCount : ℚ)
                      * ((silenceDuration - cfg.tailKeepMs : ℤ) : ℚ)
                      / ((silenceDuration : ℤ) : ℚ) + 999/1000))
                   (st2.silenceFrameCount : ℤ)).toNat
            else 0
          { st2 with pcmData := dropLastN st2.pcmData framesToRemove,
                     opusData := dropLastN st2.opusData framesToRemove }
        else st2
      let st4 := { st3 with silenceFrameCount := 0, sileroState := initSileroState,
                            pcmAccumulator := [], lastAccumTime := now }
      (⟨VadStatus.speechEnd, some enhancedPcm⟩, st4)
    else
      let st2 := st1.addPcm enhancedPcm
      (⟨VadStatus.speechContinue, some enhancedPcm⟩,
        { st2 with silenceFrameCount := st2.silenceFrameCount + 1 })
  else if st1.speaking = true then
    let st2 := st1.addPcm enhancedPcm
    (⟨VadStatus.speechContinue, some enhancedPcm⟩, { st2 with silenceFrameCount := 0 })
  else (⟨VadStatus.noSpeech, none⟩, st1)

/-- The second half of `process_audio` (from line 277 on): threshold
evaluation, energy/silence bookkeeping, then the state-machine
branches.  `decodedLen` is `len(pcm_data)` of the originally decoded
chunk (used for the frame duration), `enhancedPcm` the chunk being
processed (possibly the drained accumulator). -/
def processAudioTail (cfg : VadConfig) (st : VadState) (decodedLen : Nat)
    (enhancedPcm : List Nat) (energy prob : ℚ) (now : ℚ) : VadResult × VadState :=
  let frameDurationMs : ℤ := ((decodedLen / 32 : Nat) : ℤ)
  let isInitial := st.frameCounter < 10
  let hasEnergy := if isInitial then decide (cfg.energyThreshold * (3/10) < energy)
                   else decide (cfg.energyThreshold < energy)
  let isSpeech := (if isInitial then decide (cfg.speechThreshold * (3/5) < prob)
                   else decide (cfg.speechThreshold < prob)) && hasEnergy
  let isVeryLow := decide (energy < cfg.energyThreshold)
  let isSilence := decide (prob < cfg.silenceThreshold)
      || (decide (prob < cfg.speechThreshold) && !hasEnergy) || isVeryLow
  let st1 := (st.updateEnergy energy isSilence).updateSilence isSilence frameDurationMs now
  vadBranch cfg st1 isSpeech isSilence enhancedPcm now

/-- `VadService.process_audio` (lines 221-343), for an initialized
session.  `decoded` is the decoder's output for `opusData`; the
small-chunk accumulator branch (lines 261-275) re-runs energy and model
inference on the drained bytes. -/
def processAudio (cfg : VadConfig)
    (infer : List ℚ → List (List (List ℚ)) → ℚ × List (List (List ℚ)))
    (st0 : VadState) (opusData decoded : List Nat) (now : ℚ) : VadResult × VadState :=
  let st1 := st0.addOpus opusData
  if decoded = [] then (⟨VadStatus.noSpeech, none⟩, st1)
  else
    let energy := calcEnergy (bytesToFloats decoded)
    let dsp := detectSpeech infer (bytesToFloats decoded) st1.sileroState
    let prob := min 1 dsp.1
    let st2 := ({ st1 with sileroState := dsp.2 }).addOriginalProb prob
    let st3 := st2.addToPreBuffer decoded
    if decoded.length < 960 ∧ st3.speaking = false then
      let st4 := st3.accumulate decoded now
      if st4.pcmAccumulator.length < 960 ∧ st4.isAccumTimedOut now = false then
        (⟨VadStatus.noSpeech, none⟩, st4)
      else
        let drained := st4.drainAccumulator
        if drained.1 = [] then (⟨VadStatus.noSpeech, none⟩, drained.2)
        else
          let dsp2 := detectSpeech infer (bytesToFloats drained.1) drained.2.sileroState
          processAudioTail cfg { drained.2 with sileroState := dsp2.2 } decoded.length
            drained.1 (calcEnergy (bytesToFloats drained.1)) (min 1 dsp2.1) now
    else processAudioTail cfg st3 decoded.length decoded energy prob now

/-! Field-preservation lemmas for the `_VadState` mutators. -/

@[simp] theorem VadState.addOpus_speaking (st : VadState) (o : List Nat) :
    (st.addOpus o).speaking = st.speaking := by
  unfold VadState.addOpus; split <;> rfl

@[simp] theorem VadState.addOpus_pcmData (st : VadState) (o : List Nat) :
    (st.addOpus o).pcmData = st.pcmData := by
  unfold VadState.addOpus; split <;> rfl

theorem VadState.addOpus_opusData (st : VadState) (o : List Nat) :
    (st.addOpus o).opusData = st.opusData ++ (if o = [] then [] else [o]) := by
  unfold VadState.addOpus; split <;> simp_all

@[simp] theorem VadState.addOriginalProb_speaking (st : VadState) (p : ℚ) :
    (st.addOriginalProb p).speaking = st.speaking := rfl

@[simp] theorem VadState.addOriginalProb_pcmData (st : VadState) (p : ℚ) :
    (st.addOriginalProb p).pcmData = st.pcmData := rfl

@[simp] theorem VadState.addOriginalProb_opusData (st : VadState) (p : ℚ) :
    (st.addOriginalProb p).opusData = st.opusData := rfl

@[simp] theorem VadState.addToPreBuffer_speaking (st : VadState) (d : List Nat) :
    (st.addToPreBuffer d).speaking = st.speaking := by
  unfold VadState.addToPreBuffer; split <;> rfl

@[simp] theorem VadState.addToPreBuffer_pcmData (st : VadState) (d : List Nat) :
    (st.addToPreBuffer d).pcmData = st.pcmData := by
  unfold VadState.addToPreBuffer; split <;> rfl

@[simp] theorem VadState.addToPreBuffer_opusData (st : VadState) (d : List Nat) :
    (st.addToPreBuffer d).opusData = st.opusData := by
  unfold VadState.addToPreBuffer; split <;> rfl

@[simp] theorem VadState.accumulate_speaking (st : VadState) (p : List Nat) (now : ℚ) :
    (st.accumulate p now).speaking = st.speaking := by
  unfold VadState.accumulate; split <;> rfl

@[simp] theorem VadState.accumulate_pcmData (st : VadState) (p : List Nat) (now : ℚ) :
    (st.accumulate p now).pcmData = st.pcmData := by
  unfold VadState.accumulate; split <;> rfl

@[simp] theorem VadState.accumulate_opusData (st : VadState) (p : List Nat) (now : ℚ) :
    (st.accumulate p now).opusData = st.opusData := by
  unfold VadState.accumulate; split <;> rfl

@[simp] theorem VadState.drainAccumulator_speaking (st : VadState) :
    st.drainAccumulator.2.speaking = st.speaking := rfl

@[simp] theorem VadState.drainAccumulator_pcmData (st : VadState) :
    st.drainAccumulator.2.pcmData = st.pcmData := rfl

@[simp] theorem VadState.drainAccumulator_opusData (st : VadState) :
    st.drainAccumulator.2.opusData = st.opusData := rfl

@[simp] theorem VadState.updateEnergy_speaking (st : VadState) (e : ℚ) (b : Bool) :
    (st.updateEnergy e b).speaking = st.speaking := by
  unfold VadState.updateEnergy; split <;> rfl

@[simp] theorem VadState.updateEnergy_pcmData (st : VadState) (e : ℚ) (b : Bool) :
    (st.updateEnergy e b).pcmData = st.pcmData := by
  unfold VadState.updateEnergy; split <;> rfl

@[simp] theorem VadState.updateEnergy_opusData (st : VadState) (e : ℚ) (b : Bool) :
    (st.updateEnergy e b).opusData = st.opusData := by
  unfold VadState.updateEnergy; split <;> rfl

@[simp] theorem VadState.updateSilence_speaking (st : VadState) (b : Bool) (d : ℤ) (now : ℚ) :
    (st.updateSilence b d now).speaking = st.speaking := by
  simp only [VadState.updateSilence]
  split_ifs <;> rfl

@[simp] theorem VadState.updateSilence_pcmData (st : VadState) (b : Bool) (d : ℤ) (now : ℚ) :
    (st.updateSilence b d now).pcmData = st.pcmData := by
  simp only [VadState.updateSilence]
  split_ifs <;> rfl

@[simp] theorem VadState.updateSilence_opusData (st : VadState) (b : Bool) (d : ℤ) (now : ℚ) :
    (st.updateSilence b d now).opusData = st.opusData := by
  simp only [VadState.updateSilence]
  split_ifs <;> rfl

@[simp] theorem VadState.setSpeaking_speaking (st : VadState) (b : Bool) (now : ℚ) :
    (st.setSpeaking b now).speaking = b := by
  unfold VadState.setSpeaking; split_ifs <;> rfl

@[simp] theorem VadState.setSpeaking_pcmData (st : VadState) (b : Bool) (now : ℚ) :
    (st.setSpeaking b now).pcmData = st.pcmData := by
  unfold VadState.setSpeaking; split_ifs <;> rfl

@[simp] theorem VadState.setSpeaking_opusData (st : VadState) (b : Bool) (now : ℚ) :
    (st.setSpeaking b now).opusData = st.opusData := by
  unfold VadState.setSpeaking; split_ifs <;> rfl

@[simp] theorem VadState.addPcm_speaking (st : VadState) (p : List Nat) :
    (st.addPcm p).speaking = st.speaking := by
  unfold VadState.addPcm; split <;> rfl

@[simp] theorem VadState.addPcm_opusData (st : VadState) (p : List Nat) :
    (st.addPcm p).opusData = st.opusData := by
  unfold VadState.addPcm; split <;> rfl

@[simp] theorem VadState.drainPreBuffer_speaking (st : VadState) :
    st.drainPreBuffer.2.speaking = st.speaking := by
  unfold VadState.drainPreBuffer; split <;> rfl

@[simp] theorem VadState.drainPreBuffer_pcmData (st : VadState) :
    st.drainPreBuffer.2.pcmData = st.pcmData := by
  unfold VadState.drainPreBuffer; split <;> rfl

@[simp] theorem VadState.drainPreBuffer_opusData (st : VadState) :
    st.drainPreBuffer.2.opusData = st.opusData := by
  unfold VadState.drainPreBuffer; split <;> rfl

/-- In the Idle state the branch step either fires `SPEECH_START` or
leaves both captured lists untouched. -/
theorem vadBranch_idle (cfg : VadConfig) (st1 : VadState) (isSpeech isSilence : Bool)
    (enhancedPcm : List Nat) (now : ℚ) (h : st1.speaking = false) :
    (vadBranch cfg st1 isSpeech isSilence enhancedPcm now).1.status = VadStatus.speechStart
    ∨ ((vadBranch cfg st1 isSpeech isSilence enhancedPcm now).2.pcmData = st1.pcmData
        ∧ (vadBranch cfg st1 isSpeech isSilence enhancedPcm now).2.opusData
            = st1.opusData) := by
  unfold vadBranch
  by_cases h1 : st1.speaking = false ∧ isSpeech = true
  · rw [if_pos h1]
    left
    rfl
  · rw [if_neg h1]
    have h2 : ¬(st1.speaking = true ∧ isSilence = true) := by simp [h]
    rw [if_neg h2]
    have h3 : ¬(st1.speaking = true) := by simp [h]
    rw [if_neg h3]
    right
    exact ⟨rfl, rfl⟩

/-- In the Idle state the tail either fires `SPEECH_START` or leaves
both captured lists untouched. -/
theorem processAudioTail_idle (cfg : VadConfig) (st : VadState) (decodedLen : Nat)
    (enhancedPcm : List Nat) (energy prob now : ℚ) (h : st.speaking = false) :
    (processAudioTail cfg st decodedLen enhancedPcm energy prob now).1.status
        = VadStatus.speechStart
    ∨ ((processAudioTail cfg st decodedLen enhancedPcm energy prob now).2.pcmData = st.pcmData
        ∧ (processAudioTail cfg st decodedLen enhancedPcm energy prob now).2.opusData
            = st.opusData) := by
  simp only [processAudioTail]
  rcases vadBranch_idle cfg
      ((st.updateEnergy energy (decide (prob < cfg.silenceThreshold)
          || (decide (prob < cfg.speechThreshold)
              && !(if st.frameCounter < 10
                   then decide (cfg.energyThreshold * (3/10) < energy)
                   else decide (cfg.energyThreshold < energy)))
          || decide (energy < cfg.energyThreshold))).updateSilence
        (decide (prob < cfg.silenceThreshold)
          || (decide (prob < cfg.speechThreshold)
              && !(if st.frameCounter < 10
                   then decide (cfg.energyThreshold * (3/10) < energy)
                   else decide (cfg.energyThreshold < energy)))
          || decide (energy < cfg.energyThreshold))
        ((decodedLen / 32 : Nat) : ℤ) now)
      ((if st.frameCounter < 10
        then decide (cfg.speechThreshold * (3/5) < prob)
        else decide (cfg.speechThreshold < prob))
        && (if st.frameCounter < 10
            then decide (cfg.energyThreshold * (3/10) < energy)
            else decide (cfg.energyThreshold < energy)))
      (decide (prob < cfg.silenceThreshold)
        || (decide (prob < cfg.speechThreshold)
            && !(if st.frameCounter < 10
                 then decide (cfg.energyThreshold * (3/10) < energy)
                 else decide (cfg.energyThreshold < energy)))
        || decide (energy < cfg.energyThreshold))
      enhancedPcm now (by simp [h]) with h1 | ⟨h1, h2⟩
  · left
    exact h1
  · right
    constructor
    · rw [h1]; simp
    · rw [h2]; simp

/-- Variant of `processAudioTail_idle` phrased against given values of
the captured lists, so it applies to a composite state by unification. -/
theorem processAudioTail_idle_of (cfg : VadConfig) (st : VadState) (decodedLen : Nat)
    (enhancedPcm : List Nat) (energy prob now : ℚ) (pd od : List (List Nat))
    (h : st.speaking = false) (hp : st.pcmData = pd) (ho : st.opusData = od) :
    (processAudioTail cfg st decodedLen enhancedPcm energy prob now).1.status
        = VadStatus.speechStart
    ∨ ((processAudioTail cfg st decodedLen enhancedPcm energy prob now).2.pcmData = pd
        ∧ (processAudioTail cfg st decodedLen enhancedPcm energy prob now).2.opusData = od) := by
  rcases processAudioTail_idle cfg st decodedLen enhancedPcm energy prob now h with h1 | ⟨h1, h2⟩
  · exact Or.inl h1
  · exact Or.inr ⟨hp ▸ h1, ho ▸ h2⟩

/-- C2 (amended): on a call entered in the Idle state, `process_audio`
either fires `SPEECH_START` or leaves the PCM-captured list untouched —
but the (non-empty) chunk is appended to the Opus-captured list
regardless: only the PCM list is Speaking-gated. -/
theorem C2_vad_capture (cfg : VadConfig)
    (infer : List ℚ → List (List (List ℚ)) → ℚ × List (List (List ℚ)))
    (st0 : VadState) (opusData decoded : List Nat) (now : ℚ) (h : st0.speaking = false) :
    (processAudio cfg infer st0 opusData decoded now).1.status = VadStatus.speechStart
    ∨ ((processAudio cfg infer st0 opusData decoded now).2.pcmData = st0.pcmData
        ∧ (processAudio cfg infer st0 opusData decoded now).2.opusData
            = st0.opusData ++ (if opusData = [] then [] else [opusData])) := by
  simp only [processAudio]
  split
  · right
    exact ⟨by simp, VadState.addOpus_opusData st0 opusData⟩
  · split
    · split
      · right
        exact ⟨by simp, by simp [VadState.addOpus_opusData]⟩
      · split
        · right
          exact ⟨by simp, by simp [VadState.addOpus_opusData]⟩
        · exact processAudioTail_idle_of _ _ _ _ _ _ _ _ _
            (by simp [h]) (by simp) (by simp [VadState.addOpus_opusData])
    · exact processAudioTail_idle_of _ _ _ _ _ _ _ _ _
        (by simp [h]) (by simp) (by simp [VadState.addOpus_opusData])

@[simp] theorem VadState.addOpus_pcmAccumulator (st : VadState) (o : List Nat) :
    (st.addOpus o).pcmAccumulator = st.pcmAccumulator := by
  unfold VadState.addOpus; split <;> rfl

@[simp] theorem VadState.addOriginalProb_pcmAccumulator (st : VadState) (p : ℚ) :
    (st.addOriginalProb p).pcmAccumulator = st.pcmAccumulator := rfl

@[simp] theorem VadState.addToPreBuffer_pcmAccumulator (st : VadState) (d : List Nat) :
    (st.addToPreBuffer d).pcmAccumulator = st.pcmAccumulator := by
  unfold VadState.addToPreBuffer; split <;> rfl

theorem VadState.accumulate_pcmAccumulator (st : VadState) (p : List Nat) (now : ℚ) :
    (st.accumulate p now).pcmAccumulator
      = if p = [] then st.pcmAccumulator else st.pcmAccumulator ++ p := by
  unfold VadState.accumulate; split <;> simp_all

theorem VadState.accumulate_lastAccumTime (st : VadState) (p : List Nat) (now : ℚ) :
    (st.accumulate p now).lastAccumTime = if p = [] then st.lastAccumTime else now := by
  unfold VadState.accumulate; split <;> simp_all

/-- C2 counterexample: a small silent chunk processed in the Idle state
comes back `NO_SPEECH` with the session still Idle, yet the
Opus-captured list has grown by the chunk (the source appends to it
before any state check), refuting "while Idle, neither captured list
grows". -/
theorem C2_vad_capture_cex :
    (mkVadState 500 100).speaking = false
    ∧ (mkVadState 500 100).opusData = []
    ∧ (processAudio defaultVadConfig (fun _ st => (0, st)) (mkVadState 500 100)
        [1, 2, 3] [0, 0] 100).1.status = VadStatus.noSpeech
    ∧ (processAudio defaultVadConfig (fun _ st => (0, st)) (mkVadState 500 100)
        [1, 2, 3] [0, 0] 100).2.speaking = false
    ∧ (processAudio defaultVadConfig (fun _ st => (0, st)) (mkVadState 500 100)
        [1, 2, 3] [0, 0] 100).2.opusData = [[1, 2, 3]] := by
  have hto : ((3 : ℚ)/10 < (100 : ℚ) - 100) = False := by norm_num
  have hto2 : ((0 : ℚ) ≤ 3/10) = True := by norm_num
  refine ⟨rfl, rfl, ?_, ?_, ?_⟩ <;>
    simp [processAudio, VadState.isAccumTimedOut, VadState.accumulate_pcmAccumulator,
      VadState.accumulate_lastAccumTime, VadState.addOpus_opusData, mkVadState, hto, hto2,
      VadState.addOpus]

/-- Witness for C2_vad_capture at the same concrete Idle input. -/
theorem C2_vad_capture_witness :
    (processAudio defaultVadConfig (fun _ st => (0, st)) (mkVadState 500 100)
        [1, 2, 3] [0, 0] 100).1.status = VadStatus.speechStart
    ∨ ((processAudio defaultVadConfig (fun _ st => (0, st)) (mkVadState 500 100)
          [1, 2, 3] [0, 0] 100).2.pcmData = (mkVadState 500 100).pcmData
        ∧ (processAudio defaultVadConfig (fun _ st => (0, st)) (mkVadState 500 100)
            [1, 2, 3] [0, 0] 100).2.opusData
          = (mkVadState 500 100).opusData
              ++ (if ([1, 2, 3] : List Nat) = [] then [] else [[1, 2, 3]])) :=
  C2_vad_capture defaultVadConfig (fun _ st => (0, st)) (mkVadState 500 100)
    [1, 2, 3] [0, 0] 100 rfl
